import Mathlib

/-!
Shallow embedding of the PreTackler streaming-request engine
(`src/PreTackler/src/processor.rs`): retry classification and backoff,
the per-attempt streaming state machine of `process_streaming_request`
(fault injection, send/status handling, the chunk/line read loop with its
staging-file guard), the `RateLimiter` (request spacing and per-epoch byte
budget, with wall-clock time modelled as rational seconds and sleeps as
explicit time advances), and the `LongAdapt` idle-latency histogram.
Floating-point arithmetic of the source (`f64`) is modelled over `ℚ`;
fallible IO is modelled by explicit outcome environments.
-/

namespace PreTackler

/-- `MAX_ATTEMPTS` constant of `process_streaming_request`. -/
def MAX_ATTEMPTS : Nat := 5

/-- `BACKOFF_BASE_MS` constant of `process_streaming_request`. -/
def BACKOFF_BASE_MS : Nat := 500

/-- `BACKOFF_FACTOR` constant (2.0, modelled in ℚ). -/
def BACKOFF_FACTOR : ℚ := 2

/-- `BACKOFF_MAX_MS` constant of `process_streaming_request`. -/
def BACKOFF_MAX_MS : Nat := 30000

/-- `is_retryable_status`: `code == 429 || (500..600).contains(&code)`. -/
def is_retryable_status (code : Nat) : Bool :=
  code == 429 || (500 ≤ code && code < 600)

/-- The observable classification bits of a `reqwest::Error` that
`should_retry_error` consults. -/
structure ReqwestError where
  timeoutErr : Bool
  connectErr : Bool
  requestErr : Bool
deriving DecidableEq, Repr

/-- `should_retry_error`: `err.is_timeout() || err.is_connect() || err.is_request()`. -/
def should_retry_error (err : ReqwestError) : Bool :=
  err.timeoutErr || err.connectErr || err.requestErr

/-- `backoff_delay_ms(attempt, base_ms, factor, max_ms)`:
`factor.powi(attempt-1)`, `(base_ms as f64 * pow).round() as u64`, capped at
`max_ms`; `f64` arithmetic modelled in ℚ. -/
def backoff_delay_ms (attempt : Nat) (base_ms : Nat) (factor : ℚ) (max_ms : Nat) : Nat :=
  let pow : ℚ := factor ^ (attempt - 1)
  let v : Nat := (round ((base_ms : ℚ) * pow)).toNat
  min v max_ms

/-- The delay actually used by `process_streaming_request` for attempt `n`. -/
def backoff (attempt : Nat) : Nat :=
  backoff_delay_ms attempt BACKOFF_BASE_MS BACKOFF_FACTOR BACKOFF_MAX_MS

/-! ### LongAdapt: the idle-latency histogram (long channel) -/

/-- `LongAdaptInner`: the `VecDeque<u64>` of samples (head = oldest) and the
capacity `cap` (256). -/
structure LongAdaptInner where
  samples_ms : List Nat
  cap : Nat
deriving DecidableEq, Repr

/-- `LongAdapt::new()`. -/
def LongAdaptInner.new : LongAdaptInner :=
  { samples_ms := [], cap := 256 }

/-- `LongAdapt::observe`: if `samples_ms.len() >= cap`, `pop_front`; then
`push_back ms`. -/
def LongAdaptInner.observe (inner : LongAdaptInner) (ms : Nat) : LongAdaptInner :=
  let s := if inner.cap ≤ inner.samples_ms.length then inner.samples_ms.tail
           else inner.samples_ms
  { inner with samples_ms := s ++ [ms] }

/-- `LongAdapt::p95_ms`: `None` when empty, else sort the samples and read the
entry at index `ceil(len * 0.95) - 1` (`f64` modelled in ℚ). -/
def LongAdaptInner.p95_ms (inner : LongAdaptInner) : Option Nat :=
  if inner.samples_ms.isEmpty then none
  else
    let v := inner.samples_ms.mergeSort (fun a b => a ≤ b)
    let idx := Nat.ceil ((v.length : ℚ) * (95 / 100 : ℚ)) - 1
    v[idx]?

/-- The widening term of the adaptive idle timeout:
`((p95_ms as f64) * 1.2 / 1000.0).ceil() as u64` (modelled in ℚ). -/
def adaptive_extra_secs (p95_ms : Nat) : Nat :=
  Nat.ceil ((p95_ms : ℚ) * (12 / 10 : ℚ) / 1000)

/-- The `effective_idle_secs` computation of `process_streaming_request`
(lines 627–635): starts from the configured idle timeout; for a long job with
the adaptive estimator present, a nonzero base and an available p95, widened
to the max with `adaptive_extra_secs`. -/
def effective_idle_secs (stream_idle_timeout_secs : Nat) (is_long : Bool)
    (adapt : Option LongAdaptInner) : Nat :=
  let base := stream_idle_timeout_secs
  if is_long then
    match adapt with
    | some ad =>
      if 0 < stream_idle_timeout_secs then
        match ad.p95_ms with
        | some p => max base (adaptive_extra_secs p)
        | none => base
      else base
    | none => base
  else base

/-! ### Stream frame parsing: `process_line` and the buffer loop -/

/-- `StreamDelta` of the deserialized stream payload. -/
structure StreamDelta where
  content : Option String
deriving DecidableEq, Repr

/-- `StreamChoice` of the deserialized stream payload. -/
structure StreamChoice where
  delta : Option StreamDelta
deriving DecidableEq, Repr

/-- `StreamResponse` of the deserialized stream payload. -/
structure StreamResponse where
  choices : List StreamChoice
deriving DecidableEq, Repr

/-- The text `process_line` writes for one parsed response: each choice's
delta content, in order (`for choice in parsed.choices { ... write_all }`). -/
def deltaText (resp : StreamResponse) : String :=
  String.join (resp.choices.map fun c =>
    match c.delta with
    | some d => d.content.getD ""
    | none => "")

/-- `str::trim` on a line of characters (Rust trims Unicode whitespace;
the lines this engine handles are ASCII, where `Char.isWhitespace` agrees). -/
def trimChars (l : List Char) : List Char :=
  ((l.dropWhile Char.isWhitespace).reverse.dropWhile Char.isWhitespace).reverse

/-- The `"data:"` frame prefix. -/
def dataPrefix : List Char := "data:".toList

/-- The `"[DONE]"` terminal sentinel payload. -/
def doneSentinel : List Char := "[DONE]".toList

/-- `process_line(line_bytes, writer)`: trims the line; ignores blank or
non-`data:`-prefixed lines; strips the `data:` prefix and trims the payload;
`[DONE]` finishes the stream; otherwise the payload is deserialized
(`serde_json::from_str`, modelled by the abstract `parse` argument; a parse
failure is logged and skipped) and each delta's content is written. Returns
(finished flag, text appended to the staging writer). -/
def process_line (parse : List Char → Option StreamResponse) (line_bytes : List Char) :
    Bool × String :=
  let trimmed := trimChars line_bytes
  if trimmed.isEmpty || !(dataPrefix.isPrefixOf trimmed) then (false, "")
  else
    let payload := trimChars (trimmed.drop dataPrefix.length)
    if payload = doneSentinel then (true, "")
    else
      match parse payload with
      | none => (false, "")
      | some resp => (false, deltaText resp)

/-- `buffer.iter().position(|&b| b == b'\n')` followed by
`buffer.drain(..=position)`: the first complete line (newline included) and
the rest of the buffer, or `none` when no newline is present. -/
def splitFirstLine : List Char → Option (List Char × List Char)
  | [] => none
  | c :: rest =>
    if c = '\n' then some ([c], rest)
    else
      match splitFirstLine rest with
      | some (line, rem) => some (c :: line, rem)
      | none => none

theorem splitFirstLine_length_lt :
    ∀ (l line rest : List Char), splitFirstLine l = some (line, rest) →
      rest.length < l.length := by
  intro l
  induction l with
  | nil => intro line rest h; simp [splitFirstLine] at h
  | cons c tl ih =>
    intro line rest h
    by_cases hc : c = '\n'
    · simp [splitFirstLine, hc] at h
      simp [← h.2, List.length_cons]
    · simp [splitFirstLine, hc] at h
      cases htl : splitFirstLine tl with
      | none => rw [htl] at h; simp at h
      | some p =>
        rw [htl] at h
        obtain ⟨line0, rest0⟩ := p
        simp at h
        have := ih line0 rest0 htl
        simp [← h.2, List.length_cons]
        omega

/-- The inner `while let Some(position) = ...` loop of the chunk handler,
with explicit fuel (`splitFirstLine` shortens the buffer each step, so
`buffer.length` fuel always suffices): drains complete lines from the buffer
through `process_line`, accumulating written text, stopping early when a
line reports the stream finished.  Returns (remaining buffer, written text,
finished flag). -/
def processBufferFuel (parse : List Char → Option StreamResponse) :
    Nat → List Char → String → List Char × String × Bool
  | 0, buffer, written => (buffer, written, false)
  | fuel + 1, buffer, written =>
    match splitFirstLine buffer with
    | none => (buffer, written, false)
    | some (line, rest) =>
      let r := process_line parse line
      if r.1 then (rest, written ++ r.2, true)
      else processBufferFuel parse fuel rest (written ++ r.2)

/-- The buffer-draining loop run with enough fuel to reach its own exit
condition. -/
def processBuffer (parse : List Char → Option StreamResponse)
    (buffer : List Char) (written : String) : List Char × String × Bool :=
  processBufferFuel parse buffer.length buffer written

/-! ### The per-attempt streaming read loop of `process_streaming_request` -/

/-- The outcome of one `next_chunk` read of the response byte stream, as the
environment presents it: `timeout` (the idle deadline fired, `Err(_)` of the
`timeout` wrapper), `chunkErr` (`Ok(Some(Err(e)))`), or a data chunk;
exhausting the list is the natural end of stream (`Ok(None)`). -/
inductive ReadEvent where
  | timeout
  | chunkErr (err : ReqwestError)
  | chunk (data : List Char)
deriving DecidableEq, Repr

/-- What one attempt's `rb.send().await` and status check yield, as the
environment presents them. -/
inductive SendOutcome where
  | sendErr (err : ReqwestError)
  | response (status : Nat) (events : List ReadEvent)
deriving DecidableEq, Repr

/-- `FaultKind` of the fault-injection hook. -/
inductive FaultKind where
  | status429
  | status500
  | idle
deriving DecidableEq, Repr

/-- How one attempt ends in the model: `commit` (the staging writer's content
is flushed and renamed onto the destination; `sleeps` are backoff sleeps
taken inside the attempt before the commit), `retry` (sleep `delay` and
continue the outer `for attempt` loop with a fresh staging file), or `fail`
(`bail!`/error return: the attempt loop ends, staging is dropped). -/
inductive AttemptRes where
  | commit (content : String) (sleeps : List Nat)
  | retry (delay : Nat)
  | fail
deriving DecidableEq, Repr

/-- The `loop { match next_chunk ... }` of `process_streaming_request`
(lines 639–696) together with the code that follows it: the leftover-buffer
`process_line`, the flush and the `tmp_guard.commit()`.  Faithful to the
source, every exit of the inner loop other than a `bail!` falls through to
that commit — including the idle-timeout and retryable-stream-error branches,
whose `break` only leaves the inner loop (after sleeping the backoff delay).
Returns `AttemptRes.commit` or `AttemptRes.fail`. -/
def runStream (parse : List Char → Option StreamResponse) (attempt : Nat) :
    List ReadEvent → List Char → String → AttemptRes
  | [], buffer, written =>
    -- Ok(None): natural end of stream, finished = false here
    let written :=
      if buffer.isEmpty then written
      else written ++ (process_line parse buffer).2
    .commit written []
  | .timeout :: _, buffer, written =>
    if attempt < MAX_ATTEMPTS then
      -- sleep(backoff) then `break`: falls through to leftover + commit
      let written :=
        if buffer.isEmpty then written
        else written ++ (process_line parse buffer).2
      .commit written [backoff attempt]
    else .fail
  | .chunkErr err :: _, buffer, written =>
    if should_retry_error err && attempt < MAX_ATTEMPTS then
      let written :=
        if buffer.isEmpty then written
        else written ++ (process_line parse buffer).2
      .commit written [backoff attempt]
    else .fail
  | .chunk data :: rest, buffer, written =>
    let r := processBuffer parse (buffer ++ data) written
    if r.2.2 then .commit r.2.1 []   -- finished: break, skip leftover, commit
    else runStream parse attempt rest r.1 r.2.1

/-- One iteration of the `for attempt in 1..=MAX_ATTEMPTS` loop of
`process_streaming_request`, for one attempt environment: open the staging
writer, run the fault-injection status branch, `send`, the HTTP status
branch, the fault-injection idle branch, then the stream read loop. -/
def runAttempt (parse : List Char → Option StreamResponse)
    (fault : Option FaultKind) (attempt : Nat) (env : SendOutcome) : AttemptRes :=
  match fault with
  | some .status429 | some .status500 =>
    let code := if fault = some .status429 then 429 else 500
    if is_retryable_status code && attempt < MAX_ATTEMPTS then
      .retry (backoff attempt)
    else .fail
  | _ =>
    match env with
    | .sendErr err =>
      if should_retry_error err && attempt < MAX_ATTEMPTS then .retry (backoff attempt)
      else .fail
    | .response status events =>
      if !(200 ≤ status && status < 300) then
        if is_retryable_status status && attempt < MAX_ATTEMPTS then
          .retry (backoff attempt)
        else .fail
      else if fault = some .idle then
        if attempt < MAX_ATTEMPTS then .retry (backoff attempt) else .fail
      else
        runStream parse attempt events [] ""

/-- The on-disk state the job touches: the staging (temporary) file's content
when it exists, and the destination path's content when a file exists there.
`TempWriterGuard::drop` removes the staging file when not committed;
`TempWriterGuard::commit` renames staging onto the destination. -/
structure FS where
  staging : Option String
  dest : Option String
deriving DecidableEq, Repr

/-- The `for attempt in 1..=MAX_ATTEMPTS` retry loop from attempt number
`attempt` on, with `fuel` iterations remaining, threading the filesystem
state: a committing attempt renames its staging content to the destination;
a failing attempt drops its staging file and leaves the destination alone; a
retrying attempt drops its staging file, records its backoff sleep and
continues.  Returns (filesystem, backoff sleeps in order, success flag). -/
def runFrom (parse : List Char → Option StreamResponse) (fault : Option FaultKind)
    (envs : Nat → SendOutcome) (attempt : Nat) (fuel : Nat) (fs : FS) :
    FS × List Nat × Bool :=
  match fuel with
  | 0 => (fs, [], false)
  | fuel + 1 =>
    match runAttempt parse fault attempt (envs attempt) with
    | .commit content sleeps =>
      ({ staging := none, dest := some content }, sleeps, true)
    | .fail => ({ fs with staging := none }, [], false)
    | .retry delay =>
      let r := runFrom parse fault envs (attempt + 1) fuel { fs with staging := none }
      (r.1, delay :: r.2.1, r.2.2)

/-- `process_streaming_request`: the attempt loop started at attempt 1 with
`MAX_ATTEMPTS` iterations available. -/
def process_streaming_request (parse : List Char → Option StreamResponse)
    (fault : Option FaultKind) (envs : Nat → SendOutcome) (fs : FS) :
    FS × List Nat × Bool :=
  runFrom parse fault envs 1 MAX_ATTEMPTS fs

/-! ### A concrete stream environment, used by the closed evaluations -/

/-- A concrete payload deserializer: the payload `d1` carries one choice
whose delta content is `"A"`, the payload `d2` one whose content is `"B"`;
every other payload fails to parse. -/
def parseEx (payload : List Char) : Option StreamResponse :=
  if payload = "d1".toList then some ⟨[⟨some ⟨some "A"⟩⟩]⟩
  else if payload = "d2".toList then some ⟨[⟨some ⟨some "B"⟩⟩]⟩
  else none

/-- A complete `data:` frame carrying the delta `"A"`. -/
def lineD1 : List Char := "data: d1\n".toList

/-- A complete `data:` frame carrying the delta `"B"`. -/
def lineD2 : List Char := "data: d2\n".toList

/-- A complete `data: [DONE]` terminal-sentinel frame. -/
def lineDone : List Char := "data: [DONE]\n".toList

/-- The filesystem before the job runs: no staging file, nothing at the
destination path. -/
def fs0 : FS := ⟨none, none⟩

/-! ### RateLimiter

Wall-clock time is modelled as rational seconds; `sleep(d)` is modelled as
the loop resuming exactly `d` later (the sequential shallow embedding of the
cooperative waits).  The loops of `acquire_request` and `acquire_bytes` are
given explicit fuel; `none` means the fuel was exhausted before a grant. -/

/-- `RateLimiterInner` (the `last_request`/`epoch_start` instants are
rational seconds; `bytes_in_epoch` the bytes granted in the current epoch). -/
structure RateLimiterInner where
  rps : Option ℚ
  bytes_per_sec : Option Nat
  last_request : Option ℚ
  epoch_start : ℚ
  bytes_in_epoch : Nat
deriving DecidableEq, Repr

/-- `RateLimiter::new(rps, bytes_per_sec)` at start instant `t0`
(`epoch_start: Instant::now()`). -/
def RateLimiterInner.new (rps : Option ℚ) (bytes_per_sec : Option Nat) (t0 : ℚ) :
    RateLimiterInner :=
  { rps := rps, bytes_per_sec := bytes_per_sec, last_request := none,
    epoch_start := t0, bytes_in_epoch := 0 }

/-- The `loop` of `RateLimiter::acquire_request` with `min_interval` already
computed: grants when `now >= last_request + min_interval` (or no previous
grant), setting `last_request := now`; otherwise sleeps `due - now` and
retries at `due`.  Returns the state and grant instant. -/
def acquireRequestLoop (min_interval : ℚ) (fuel : Nat) (inner : RateLimiterInner)
    (now : ℚ) : Option (RateLimiterInner × ℚ) :=
  match fuel with
  | 0 => none
  | fuel + 1 =>
    let due : ℚ :=
      match inner.last_request with
      | some last => last + min_interval
      | none => now
    if due ≤ now then some ({ inner with last_request := some now }, now)
    else acquireRequestLoop min_interval fuel inner due

/-- `RateLimiter::acquire_request`: no-op without an `rps`; otherwise the
grant loop with `min_interval = max (1/rps) 0`
(`Duration::from_secs_f64((1.0 / rps).max(0.0))`). -/
def acquire_request (fuel : Nat) (inner : RateLimiterInner) (now : ℚ) :
    Option (RateLimiterInner × ℚ) :=
  match inner.rps with
  | none => some (inner, now)
  | some rps => acquireRequestLoop (max (1 / rps) 0) fuel inner now

/-- The `loop` of `RateLimiter::acquire_bytes` with the byte budget `limit`
already read: if a full second elapsed since `epoch_start`, reset the epoch
and zero the counter; grant when `bytes_in_epoch + need <= limit`; otherwise
sleep until the epoch boundary (`1s - (now - epoch_start)`) and retry. -/
def acquireBytesLoop (limit : Nat) (need : Nat) (fuel : Nat)
    (inner : RateLimiterInner) (now : ℚ) : Option (RateLimiterInner × ℚ) :=
  match fuel with
  | 0 => none
  | fuel + 1 =>
    let inner :=
      if 1 ≤ now - inner.epoch_start then
        { inner with epoch_start := now, bytes_in_epoch := 0 }
      else inner
    if inner.bytes_in_epoch + need ≤ limit then
      some ({ inner with bytes_in_epoch := inner.bytes_in_epoch + need }, now)
    else
      acquireBytesLoop limit need fuel inner (now + (1 - (now - inner.epoch_start)))

/-- `RateLimiter::acquire_bytes`: no-op without a byte budget; otherwise the
grant loop. -/
def acquire_bytes (fuel : Nat) (inner : RateLimiterInner) (now : ℚ) (need : Nat) :
    Option (RateLimiterInner × ℚ) :=
  match inner.bytes_per_sec with
  | none => some (inner, now)
  | some limit => acquireBytesLoop limit need fuel inner now

/-! ### Helper lemmas -/

/-- The backoff delay with the engine's constants, in closed form. -/
theorem backoff_eq (k : Nat) : backoff k = min (500 * 2 ^ (k - 1)) 30000 := by
  unfold backoff backoff_delay_ms BACKOFF_BASE_MS BACKOFF_FACTOR BACKOFF_MAX_MS
  dsimp only
  have h : ((500 : ℕ) : ℚ) * (2 : ℚ) ^ (k - 1) = ((500 * 2 ^ (k - 1) : ℕ) : ℚ) := by
    push_cast; ring
  rw [h, round_natCast]
  norm_cast

/-- A nonempty histogram always yields a p95 estimate: the rank index
`ceil(len * 0.95) - 1` lies inside the sorted sample vector. -/
theorem p95_ms_isSome (inner : LongAdaptInner) (h : inner.samples_ms ≠ []) :
    ∃ p, inner.p95_ms = some p := by
  unfold LongAdaptInner.p95_ms
  rw [if_neg (by simpa using h)]
  dsimp only
  have hpos : 0 < (inner.samples_ms.mergeSort (fun a b => a ≤ b)).length := by
    rw [List.length_mergeSort _]
    exact List.length_pos.mpr h
  have hle : Nat.ceil (((inner.samples_ms.mergeSort (fun a b => a ≤ b)).length : ℚ)
      * (95 / 100 : ℚ)) ≤ (inner.samples_ms.mergeSort (fun a b => a ≤ b)).length := by
    rw [Nat.ceil_le]
    exact mul_le_of_le_one_right (by positivity) (by norm_num)
  have hidx : Nat.ceil (((inner.samples_ms.mergeSort (fun a b => a ≤ b)).length : ℚ)
      * (95 / 100 : ℚ)) - 1 < (inner.samples_ms.mergeSort (fun a b => a ≤ b)).length := by
    omega
  exact ⟨_, List.getElem?_eq_getElem hidx⟩

/-- Whenever the byte-grant loop returns, the bytes granted within the
current epoch are within the configured budget (the grant guard
`bytes_in_epoch + need <= limit` is the last write to the counter). -/
theorem acquireBytesLoop_bytes_le (limit need : Nat) :
    ∀ (fuel : Nat) (st st' : RateLimiterInner) (now t : ℚ),
      acquireBytesLoop limit need fuel st now = some (st', t) →
      st'.bytes_in_epoch ≤ limit := by
  intro fuel
  induction fuel with
  | zero => intro st st' now t h; simp [acquireBytesLoop] at h
  | succ n ih =>
    intro st st' now t h
    rw [acquireBytesLoop] at h
    split_ifs at h with h1 h2 h3
    · simp only [Option.some.injEq, Prod.mk.injEq] at h
      obtain ⟨hst, -⟩ := h
      subst hst
      simpa using h2
    · exact ih _ _ _ _ h
    · simp only [Option.some.injEq, Prod.mk.injEq] at h
      obtain ⟨hst, -⟩ := h
      subst hst
      simpa using h3
    · exact ih _ _ _ _ h

/-- Whenever the request-grant loop returns after a previous grant at
`last`, the new grant instant is at least `last + min_interval` and is
recorded as the new `last_request`. -/
theorem acquireRequestLoop_spacing (minInt : ℚ) :
    ∀ (fuel : Nat) (st st' : RateLimiterInner) (now t last : ℚ),
      st.last_request = some last →
      acquireRequestLoop minInt fuel st now = some (st', t) →
      st'.last_request = some t ∧ last + minInt ≤ t := by
  intro fuel
  induction fuel with
  | zero => intro st st' now t last hl h; simp [acquireRequestLoop] at h
  | succ n ih =>
    intro st st' now t last hl h
    rw [acquireRequestLoop] at h
    rw [hl] at h
    split_ifs at h with h1
    · simp only [Option.some.injEq, Prod.mk.injEq] at h
      obtain ⟨hst, ht⟩ := h
      subst hst
      subst ht
      exact ⟨rfl, h1⟩
    · exact ih _ _ _ _ _ hl h

/-- A byte request within the budget is granted within two loop
iterations: at worst one sleep to the epoch boundary, after which the fresh
epoch's zeroed counter admits the request. -/
theorem acquireBytesLoop_terminates (limit need : Nat) (st : RateLimiterInner)
    (now : ℚ) (h : need ≤ limit) :
    ∃ st' t, acquireBytesLoop limit need 2 st now = some (st', t) := by
  rw [acquireBytesLoop]
  by_cases h1 : (1:ℚ) ≤ now - st.epoch_start
  · rw [if_pos h1, if_pos (by simpa using h)]
    exact ⟨_, _, rfl⟩
  · rw [if_neg h1]
    by_cases h2 : st.bytes_in_epoch + need ≤ limit
    · rw [if_pos h2]
      exact ⟨_, _, rfl⟩
    · rw [if_neg h2, acquireBytesLoop]
      have e2 : now + (1 - (now - st.epoch_start)) - st.epoch_start = 1 := by ring
      rw [if_pos (le_of_eq e2.symm), if_pos (by simpa using h)]
      exact ⟨_, _, rfl⟩

/-- A byte request above the budget is never granted: even a freshly reset
epoch leaves `bytes_in_epoch + need` above the budget, so every loop
iteration sleeps again, for any amount of fuel. -/
theorem acquireBytesLoop_diverges (limit need : Nat) (hover : limit < need) :
    ∀ (fuel : Nat) (st : RateLimiterInner) (now : ℚ),
      acquireBytesLoop limit need fuel st now = none := by
  intro fuel
  induction fuel with
  | zero => intro st now; rw [acquireBytesLoop]
  | succ n ih =>
    intro st now
    rw [acquireBytesLoop]
    split_ifs with h1 h2 h3
    · exact absurd (by simpa using h2) (by omega)
    · exact ih _ _
    · exact absurd (le_trans (Nat.le_add_left _ _) h3) (by omega)
    · exact ih _ _

/-- A run of the attempt loop that ends in failure leaves the destination
and the staging path exactly as clean as it found them: commits are the only
writes to the destination and every non-commit exit drops the staging file. -/
theorem runFrom_failure_clean (parse : List Char → Option StreamResponse)
    (fault : Option FaultKind) (envs : Nat → SendOutcome) :
    ∀ (fuel attempt : Nat) (fs fs' : FS) (sleeps : List Nat),
      fs.dest = none → fs.staging = none →
      runFrom parse fault envs attempt fuel fs = (fs', sleeps, false) →
      fs'.dest = none ∧ fs'.staging = none := by
  intro fuel
  induction fuel with
  | zero =>
    intro attempt fs fs' sleeps hd hs h
    rw [runFrom] at h
    simp only [Prod.mk.injEq] at h
    obtain ⟨hfs, -, -⟩ := h
    subst hfs
    exact ⟨hd, hs⟩
  | succ n ih =>
    intro attempt fs fs' sleeps hd hs h
    rw [runFrom] at h
    cases hA : runAttempt parse fault attempt (envs attempt) with
    | commit content s =>
      rw [hA] at h
      simp at h
    | fail =>
      rw [hA] at h
      simp only [Prod.mk.injEq] at h
      obtain ⟨hfs, -, -⟩ := h
      subst hfs
      exact ⟨hd, rfl⟩
    | retry delay =>
      rw [hA] at h
      simp only [Prod.mk.injEq] at h
      obtain ⟨hfs, -, hok⟩ := h
      subst hfs
      exact ih (attempt + 1) { fs with staging := none } _ _ hd rfl
        (by rw [← hok])

/-! ### Claim theorems -/

/-- C1: the spec says a mid-stream idle timeout with retry attempts
remaining abandons the in-flight attempt (nothing committed, staging
discarded, fresh attempt after the backoff delay).  The code instead only
breaks out of the inner read loop — its own comment says "break out to the
outer retry" — and falls through to the commit path: at this failing input
(attempt 1 stream delivers one `data:` frame carrying `"A"`, then the idle
deadline fires, 4 retry attempts remaining) the engine sleeps the backoff
delay, renames the partial staging file onto the destination and reports
success, with no further attempt. -/
theorem c1_idle_timeout_commits_partial :
    process_streaming_request parseEx none
      (fun _ => .response 200 [.chunk lineD1, .timeout]) fs0
      = (⟨none, some "A"⟩, [backoff 1], true) := rfl

/-- C2: the spec says a successful job's staging file is renamed to the
destination only after the `[DONE]` sentinel was seen or the stream's input
was exhausted.  At this input the attempt's stream delivers a frame carrying
`"A"`, then an idle timeout, and still holds an unread chunk carrying `"B"`:
the job nevertheless reports success and the destination receives `"A"` —
committed with no sentinel seen and input not exhausted, and missing the
delta `"B"` the stream still carried. -/
theorem c2_commit_without_sentinel_or_exhaustion :
    process_streaming_request parseEx none
      (fun _ => .response 200 [.chunk lineD1, .timeout, .chunk lineD2]) fs0
      = (⟨none, some "A"⟩, [backoff 1], true) := rfl

/-- C3 counterexample: with a forced-429 fault enabled and a real request
path that would succeed immediately on any attempt (one delta then
`[DONE]`), the final attempt does not fall through to the real request: the
job fails after four backoff sleeps, so the claimed fall-through on the
attempt ceiling is false. -/
theorem c3_final_attempt_fault_not_bypassed_cex :
    process_streaming_request parseEx (some .status429)
      (fun _ => .response 200 [.chunk (lineD1 ++ lineDone)]) fs0
      = (⟨none, none⟩, [backoff 1, backoff 2, backoff 3, backoff 4], false) := rfl

/-- C3 (amended): when a fault-injection class is enabled the simulated
failure is applied on every attempt: with attempts remaining it yields a
retryable outcome with the computed backoff, and on the final attempt
(attempt = `MAX_ATTEMPTS` = 5) the job fails with the injected fault instead
of falling through to the real request path.  The forced-429/forced-5xx
faults are applied before the request is sent; the forced idle stall after a
successful (2xx) response. -/
theorem c3_fault_injection_applied_every_attempt
    (parse : List Char → Option StreamResponse) (attempt : Nat) :
    (∀ (f : FaultKind) (env : SendOutcome), (f = .status429 ∨ f = .status500) →
      runAttempt parse (some f) attempt env =
        if attempt < MAX_ATTEMPTS then .retry (backoff attempt) else .fail) ∧
    (∀ (status : Nat) (events : List ReadEvent), 200 ≤ status → status < 300 →
      runAttempt parse (some .idle) attempt (.response status events) =
        if attempt < MAX_ATTEMPTS then .retry (backoff attempt) else .fail) := by
  constructor
  · rintro f env (rfl | rfl) <;>
      by_cases h : attempt < MAX_ATTEMPTS <;>
      simp [runAttempt, is_retryable_status, h]
  · intro status events h1 h2
    by_cases h : attempt < MAX_ATTEMPTS <;>
      simp [runAttempt, h1, h2, h]

/-- C3 witness: the amended theorem at concrete inputs — a forced 429 on the
final attempt fails the job; a forced idle stall on attempt 1 retries with
the first backoff delay. -/
theorem c3_fault_injection_applied_every_attempt_witness :
    runAttempt parseEx (some .status429) 5 (.response 200 [.chunk lineDone]) = .fail ∧
    runAttempt parseEx (some .idle) 1 (.response 200 []) = .retry (backoff 1) := by
  constructor
  · have h := (c3_fault_injection_applied_every_attempt parseEx 5).1
      (.status429) (.response 200 [.chunk lineDone]) (Or.inl rfl)
    simpa [MAX_ATTEMPTS] using h
  · have h := (c3_fault_injection_applied_every_attempt parseEx 1).2
      200 [] (by norm_num) (by norm_num)
    simpa [MAX_ATTEMPTS] using h

/-- C4: a job whose processing ends in failure (terminal outcome, or
retryable outcome with the attempt ceiling exhausted) leaves no file at the
destination path and no staging file: the destination is only ever created
by the rename of a successful commit, and every non-commit exit drops the
staging file. -/
theorem c4_failed_job_leaves_no_artifacts
    (parse : List Char → Option StreamResponse) (fault : Option FaultKind)
    (envs : Nat → SendOutcome) (fs fs' : FS) (sleeps : List Nat)
    (hdest : fs.dest = none) (hstaging : fs.staging = none)
    (h : process_streaming_request parse fault envs fs = (fs', sleeps, false)) :
    fs'.dest = none ∧ fs'.staging = none :=
  runFrom_failure_clean parse fault envs MAX_ATTEMPTS 1 fs fs' sleeps hdest hstaging h

/-- C4 witness: a concrete failing job (every attempt answers HTTP 503, so
the attempt ceiling is exhausted) ends with no destination file and no
staging file. -/
theorem c4_failed_job_leaves_no_artifacts_witness :
    (⟨none, none⟩ : FS).dest = none ∧ (⟨none, none⟩ : FS).staging = none :=
  c4_failed_job_leaves_no_artifacts parseEx none (fun _ => .response 503 [])
    fs0 ⟨none, none⟩ [backoff 1, backoff 2, backoff 3, backoff 4] rfl rfl rfl

/-- C5: an outcome is classified retryable exactly when it is a
network-level timeout, connection failure or request-construction failure
(`should_retry_error`), or an HTTP status of 429 or in 500..599
(`is_retryable_status`); every other non-2xx status is terminal — the
attempt fails on the spot and is never retried. -/
theorem c5_retryable_classification :
    (∀ code : Nat, is_retryable_status code = true ↔
      (code = 429 ∨ (500 ≤ code ∧ code ≤ 599))) ∧
    (∀ err : ReqwestError, should_retry_error err = true ↔
      (err.timeoutErr = true ∨ err.connectErr = true ∨ err.requestErr = true)) ∧
    (∀ (parse : List Char → Option StreamResponse) (attempt : Nat)
      (status : Nat) (events : List ReadEvent),
      is_retryable_status status = false → ¬(200 ≤ status ∧ status < 300) →
      runAttempt parse none attempt (.response status events) = .fail) := by
  refine ⟨?_, ?_, ?_⟩
  · intro code
    simp only [is_retryable_status, Bool.or_eq_true, beq_iff_eq, Bool.and_eq_true,
      decide_eq_true_eq]
    omega
  · intro err
    simp [should_retry_error]
    tauto
  · intro parse attempt status events hnr h2xx
    by_cases hc : (decide (200 ≤ status) && decide (status < 300)) = true
    · exact absurd (by simpa using hc) h2xx
    · simp only [Bool.not_eq_true] at hc
      simp [runAttempt, hc, hnr]

/-- C5 witness: HTTP 404 is classified terminal and the attempt fails with
no retry, while 429 and 503 are classified retryable. -/
theorem c5_retryable_classification_witness :
    runAttempt parseEx none 1 (.response 404 []) = .fail ∧
    is_retryable_status 429 = true ∧ is_retryable_status 503 = true ∧
    is_retryable_status 404 = false := by
  refine ⟨?_, rfl, rfl, rfl⟩
  exact c5_retryable_classification.2.2 parseEx 1 404 [] rfl (by omega)

/-- C6: RateLimiter invariant — whenever the byte gate grants, the bytes
granted within the current 1-second epoch are within the configured budget,
and whenever the request gate grants after a previous grant at `last` under
a configured rate `rps > 0`, the new grant is at least `1/rps` later and
becomes the recorded `last_request`. -/
theorem c6_rate_limiter_invariant :
    (∀ (limit need fuel : Nat) (st st' : RateLimiterInner) (now t : ℚ),
      acquireBytesLoop limit need fuel st now = some (st', t) →
      st'.bytes_in_epoch ≤ limit) ∧
    (∀ (rps : ℚ) (fuel : Nat) (st st' : RateLimiterInner) (now t last : ℚ),
      0 < rps → st.rps = some rps → st.last_request = some last →
      acquire_request fuel st now = some (st', t) →
      st'.last_request = some t ∧ last + 1 / rps ≤ t) := by
  constructor
  · exact acquireBytesLoop_bytes_le
  · intro rps fuel st st' now t last hr hrps hl h
    simp only [acquire_request, hrps] at h
    have hs := acquireRequestLoop_spacing (max (1 / rps) 0) fuel st st' now t last hl h
    refine ⟨hs.1, le_trans ?_ hs.2⟩
    exact add_le_add_left (le_max_left _ _) _

/-- C6 witness: the invariant at concrete inputs — a 3-byte grant under a
10-byte budget leaves 3 bytes counted in the epoch, and with `rps = 1` a
grant after a previous grant at instant 0 lands at instant 2 ≥ 0 + 1. -/
theorem c6_rate_limiter_invariant_witness :
    (⟨none, some 10, none, 0, 3⟩ : RateLimiterInner).bytes_in_epoch ≤ 10 ∧
    ((⟨some 1, none, some 2, 0, 0⟩ : RateLimiterInner).last_request = some 2 ∧
      (0 : ℚ) + 1 / 1 ≤ 2) := by
  constructor
  · refine c6_rate_limiter_invariant.1 10 3 1 ⟨none, some 10, none, 0, 0⟩ _ 0 0 ?_
    norm_num [acquireBytesLoop]
  · refine c6_rate_limiter_invariant.2 1 1 ⟨some 1, none, some 0, 0, 0⟩ _ 2 2 0
      (by norm_num) rfl rfl ?_
    norm_num [acquire_request, acquireRequestLoop]

/-- C7: for a long-class job with a nonzero configured idle timeout,
adaptive mode enabled and a nonempty histogram, the effective idle timeout
equals `max(configuredIdleTimeout, ceil(p95 * 1.2))` (converted to whole
seconds) and is therefore at least the configured base. -/
theorem c7_adaptive_idle_widens (base : Nat) (ad : LongAdaptInner)
    (hbase : 0 < base) (hne : ad.samples_ms ≠ []) :
    ∃ p, ad.p95_ms = some p ∧
      effective_idle_secs base true (some ad) = max base (adaptive_extra_secs p) ∧
      base ≤ effective_idle_secs base true (some ad) := by
  obtain ⟨p, hp⟩ := p95_ms_isSome ad hne
  have he : effective_idle_secs base true (some ad) = max base (adaptive_extra_secs p) := by
    simp [effective_idle_secs, hp, hbase]
  exact ⟨p, hp, he, by rw [he]; exact le_max_left _ _⟩

/-- C7 witness: a base timeout of 1 second and a single 2000 ms sample. -/
theorem c7_adaptive_idle_widens_witness :
    ∃ p, (LongAdaptInner.mk [2000] 256).p95_ms = some p ∧
      effective_idle_secs 1 true (some (LongAdaptInner.mk [2000] 256))
        = max 1 (adaptive_extra_secs p) ∧
      1 ≤ effective_idle_secs 1 true (some (LongAdaptInner.mk [2000] 256)) :=
  c7_adaptive_idle_widens 1 (LongAdaptInner.mk [2000] 256) (by norm_num) (by simp)

/-- C8: IdleHistogram invariant — an observe never grows the histogram past
the 256-sample capacity, when full it evicts the oldest sample (FIFO) before
appending, and a p95 query over an empty histogram yields no estimate. -/
theorem c8_idle_histogram_invariant (inner : LongAdaptInner) (ms : Nat)
    (hcap : inner.cap = 256) (hlen : inner.samples_ms.length ≤ 256) :
    ((inner.observe ms).samples_ms.length ≤ 256 ∧
      (256 ≤ inner.samples_ms.length →
        (inner.observe ms).samples_ms = inner.samples_ms.tail ++ [ms])) ∧
    (∀ inner2 : LongAdaptInner, inner2.samples_ms = [] → inner2.p95_ms = none) := by
  refine ⟨⟨?_, ?_⟩, ?_⟩
  · unfold LongAdaptInner.observe
    by_cases hfull : inner.cap ≤ inner.samples_ms.length
    · rw [if_pos hfull]
      simp only [List.length_append, List.length_tail, List.length_cons, List.length_nil]
      omega
    · rw [if_neg hfull]
      simp only [List.length_append, List.length_cons, List.length_nil]
      omega
  · intro hge
    unfold LongAdaptInner.observe
    rw [if_pos (by omega)]
  · intro inner2 h2
    unfold LongAdaptInner.p95_ms
    rw [if_pos (by simp [h2])]

/-- C8 witness: observing a sample on a fresh estimator respects the bound,
and the fresh estimator's p95 is "no estimate". -/
theorem c8_idle_histogram_invariant_witness :
    ((LongAdaptInner.new.observe 5).samples_ms.length ≤ 256 ∧
      (256 ≤ LongAdaptInner.new.samples_ms.length →
        (LongAdaptInner.new.observe 5).samples_ms
          = LongAdaptInner.new.samples_ms.tail ++ [5])) ∧
    (∀ inner2 : LongAdaptInner, inner2.samples_ms = [] → inner2.p95_ms = none) :=
  c8_idle_histogram_invariant LongAdaptInner.new 5 rfl (by norm_num [LongAdaptInner.new])

/-- C9: for attempt ordinals 1..5 the computed backoff delay equals
`min(500ms * 2^(n-1), 30000ms)`, and the delays across successive retries
are non-decreasing up to the cap. -/
theorem c9_backoff_formula (n m : Nat) (h1 : 1 ≤ n) (hm : n ≤ m) (h5 : m ≤ 5) :
    backoff n = min (500 * 2 ^ (n - 1)) 30000 ∧ backoff n ≤ backoff m := by
  refine ⟨backoff_eq n, ?_⟩
  rw [backoff_eq n, backoff_eq m]
  exact min_le_min
    (Nat.mul_le_mul_left _ (Nat.pow_le_pow_right (by norm_num) (by omega))) le_rfl

/-- C9 witness: attempts 2 and 3. -/
theorem c9_backoff_formula_witness :
    backoff 2 = min (500 * 2 ^ (2 - 1)) 30000 ∧ backoff 2 ≤ backoff 3 :=
  c9_backoff_formula 2 3 (by norm_num) (by norm_num) (by norm_num)

/-- C10: with a byte budget configured, `acquire_bytes` returns within two
loop iterations for any request within the budget, and never returns
(no amount of fuel yields a grant) for a request above the budget. -/
theorem c10_acquire_bytes_termination :
    (∀ (limit need : Nat) (st : RateLimiterInner) (now : ℚ),
      st.bytes_per_sec = some limit → need ≤ limit →
      ∃ st' t, acquire_bytes 2 st now need = some (st', t)) ∧
    (∀ (limit need fuel : Nat) (st : RateLimiterInner) (now : ℚ),
      st.bytes_per_sec = some limit → limit < need →
      acquire_bytes fuel st now need = none) := by
  constructor
  · intro limit need st now hb h
    simp only [acquire_bytes, hb]
    exact acquireBytesLoop_terminates limit need st now h
  · intro limit need fuel st now hb h
    simp only [acquire_bytes, hb]
    exact acquireBytesLoop_diverges limit need h fuel st now

/-- C10 witness: a 3-byte request under a 5-byte budget is granted; a 5-byte
request under a 2-byte budget is never granted. -/
theorem c10_acquire_bytes_termination_witness :
    (∃ st' t, acquire_bytes 2 (RateLimiterInner.new none (some 5) 0) 0 3
      = some (st', t)) ∧
    acquire_bytes 7 (RateLimiterInner.new none (some 2) 0) 0 5 = none := by
  constructor
  · exact c10_acquire_bytes_termination.1 5 3 (RateLimiterInner.new none (some 5) 0) 0
      rfl (by norm_num)
  · exact c10_acquire_bytes_termination.2 2 5 7 (RateLimiterInner.new none (some 2) 0) 0
      rfl (by norm_num)

end PreTackler
